import Mathlib

/-!
Verification of the pixel-canvas server (`src/main.rs`).

The server keeps one in-memory RGB raster (`RgbImage` behind an `RwLock`),
a single-consumer mpsc queue of pixel writes drained by one applier thread,
and a time-windowed encoding cache (`CanvasCache`, TTL 100 ms).  The shallow
embedding below models:

* the raster as a flat row-major list of RGB triples (`Canvas`), with
  `put_pixel` as an index update at `y * width + x`;
* the `set_pixel` HTTP handler (bounds check, 400/204, enqueue);
* the `get_image` HTTP handler (cache hit / miss, PNG encode, headers),
  with the PNG encoder abstracted as a fallible function parameter and
  the monotonic clock as a natural number of milliseconds;
* the whole-process concurrency as a small-step transition relation
  `Step` over `SysState` (queue contents, applier state, write lock,
  channel closure, final save), with ghost logs recording acceptance
  order, apply order per batch, and enqueue timing.
-/

namespace PixelCanvas

/-- An RGB triple; models `image::Rgb<u8>` (channel range is irrelevant to
the claims, which never do channel arithmetic). -/
structure Rgb where
  r : Nat
  g : Nat
  b : Nat
deriving DecidableEq

/-- A pixel write request, deserialized from JSON `{x,y,r,g,b}`
(struct `Pixel` in the source). -/
structure Pixel where
  x : Nat
  y : Nat
  r : Nat
  g : Nat
  b : Nat
deriving DecidableEq

/-- The raster: models `image::RgbImage`, a `width × height` buffer stored
row-major, pixel `(x, y)` at flat index `y * width + x`. -/
structure Canvas where
  width : Nat
  height : Nat
  data : List Rgb
deriving DecidableEq

/-- Read pixel `(x, y)` of the raster (row-major index). -/
def getPix (c : Canvas) (x y : Nat) : Rgb :=
  c.data.getD (y * c.width + x) ⟨0, 0, 0⟩

/-- Models `canvas.put_pixel(pixel.x, pixel.y, Rgb([pixel.r, pixel.g, pixel.b]))`
(line 125 of the source): overwrite the flat buffer at `y * width + x`. -/
def putPixel (c : Canvas) (p : Pixel) : Canvas :=
  { c with data := c.data.set (p.y * c.width + p.x) ⟨p.r, p.g, p.b⟩ }

/-- `image::RgbImage::put_pixel` panics when the coordinate is out of
bounds; this wrapper makes that branch explicit (`none` = panic). -/
def putPixelBranch (c : Canvas) (p : Pixel) : Option Canvas :=
  if p.x < c.width ∧ p.y < c.height then some (putPixel c p) else none

/-- Apply a list of pixel writes left to right (the applier thread's
cumulative effect over its FIFO input). -/
def applyAll (c : Canvas) (ws : List Pixel) : Canvas :=
  ws.foldl putPixel c

/-- The last write in `ws` targeting `(x, y)`, if any. -/
def lastWriteTo (ws : List Pixel) (x y : Nat) : Option Pixel :=
  (ws.filter fun p => p.x = x ∧ p.y = y).getLast?

lemma getD_set_same : ∀ (l : List Rgb) (i : Nat) (a d : Rgb),
    i < l.length → (l.set i a).getD i d = a := by
  intro l
  induction l with
  | nil => intro i a d h; simp at h
  | cons x xs ih =>
    intro i a d h
    cases i with
    | zero => rfl
    | succ j =>
      simp only [List.set, List.getD, List.getElem?_cons_succ]
      have := ih j a d (by simpa using Nat.lt_of_succ_lt_succ h)
      simpa [List.getD] using this

lemma getD_set_ne : ∀ (l : List Rgb) (i j : Nat) (a d : Rgb),
    i ≠ j → (l.set i a).getD j d = l.getD j d := by
  intro l
  induction l with
  | nil => intro i j a d _; cases i <;> rfl
  | cons x xs ih =>
    intro i j a d hij
    cases i with
    | zero =>
      cases j with
      | zero => exact absurd rfl hij
      | succ k => rfl
    | succ i' =>
      cases j with
      | zero => rfl
      | succ k =>
        simp only [List.set, List.getD, List.getElem?_cons_succ]
        have := ih i' k a d (fun h => hij (by rw [h]))
        simpa [List.getD] using this

/-- Row-major flat indices are injective while both x-coordinates are in
the row: `y₁ * w + x₁ = y₂ * w + x₂` forces equal coordinates. -/
lemma rowMajor_inj {w x1 x2 y1 y2 : Nat} (h1 : x1 < w) (h2 : x2 < w)
    (h : y1 * w + x1 = y2 * w + x2) : x1 = x2 ∧ y1 = y2 := by
  have hw : 0 < w := Nat.lt_of_le_of_lt (Nat.zero_le x1) h1
  have hx : x1 = x2 := by
    have e1 : (y1 * w + x1) % w = x1 := by
      rw [Nat.add_comm, Nat.add_mul_mod_self_right, Nat.mod_eq_of_lt h1]
    have e2 : (y2 * w + x2) % w = x2 := by
      rw [Nat.add_comm, Nat.add_mul_mod_self_right, Nat.mod_eq_of_lt h2]
    rw [← e1, ← e2, h]
  refine ⟨hx, ?_⟩
  have : y1 * w = y2 * w := by omega
  exact Nat.eq_of_mul_eq_mul_right hw this

/-- A valid coordinate's flat index lies inside a `w * h` buffer. -/
lemma rowMajor_lt {w h x y : Nat} (hx : x < w) (hy : y < h) :
    y * w + x < w * h := by
  have h1 : y * w + x < (y + 1) * w := by
    have : y * w + x < y * w + w := by omega
    simpa [Nat.succ_mul] using this
  have h2 : (y + 1) * w ≤ h * w := Nat.mul_le_mul_right w hy
  calc y * w + x < (y + 1) * w := h1
    _ ≤ h * w := h2
    _ = w * h := Nat.mul_comm h w

lemma putPixel_width (c : Canvas) (p : Pixel) : (putPixel c p).width = c.width := rfl

lemma putPixel_height (c : Canvas) (p : Pixel) : (putPixel c p).height = c.height := rfl

lemma putPixel_length (c : Canvas) (p : Pixel) :
    (putPixel c p).data.length = c.data.length := by
  simp [putPixel]

/-- Reading back the written pixel. -/
lemma getPix_putPixel_same (c : Canvas) (p : Pixel)
    (hlen : c.data.length = c.width * c.height)
    (hx : p.x < c.width) (hy : p.y < c.height) :
    getPix (putPixel c p) p.x p.y = ⟨p.r, p.g, p.b⟩ := by
  unfold getPix putPixel
  exact getD_set_same _ _ _ _ (by rw [hlen]; exact rowMajor_lt hx hy)

/-- Frame property: a pixel write leaves every other in-row coordinate
unchanged. -/
lemma getPix_putPixel_ne (c : Canvas) (p : Pixel) (x y : Nat)
    (hx : x < c.width) (hpx : p.x < c.width)
    (hne : ¬(x = p.x ∧ y = p.y)) :
    getPix (putPixel c p) x y = getPix c x y := by
  unfold getPix putPixel
  refine getD_set_ne _ _ _ _ _ ?_
  intro h
  exact hne (by
    have := rowMajor_inj hx hpx h.symm
    exact ⟨this.1, this.2⟩)

lemma applyAll_append_single (c : Canvas) (ws : List Pixel) (w : Pixel) :
    applyAll c (ws ++ [w]) = putPixel (applyAll c ws) w := by
  simp [applyAll, List.foldl_append]

lemma applyAll_width (c : Canvas) (ws : List Pixel) :
    (applyAll c ws).width = c.width := by
  induction ws using List.reverseRecOn with
  | nil => rfl
  | append_singleton ws w ih => rw [applyAll_append_single, putPixel_width, ih]

lemma applyAll_height (c : Canvas) (ws : List Pixel) :
    (applyAll c ws).height = c.height := by
  induction ws using List.reverseRecOn with
  | nil => rfl
  | append_singleton ws w ih => rw [applyAll_append_single, putPixel_height, ih]

lemma applyAll_length (c : Canvas) (ws : List Pixel) :
    (applyAll c ws).data.length = c.data.length := by
  induction ws using List.reverseRecOn with
  | nil => rfl
  | append_singleton ws w ih => rw [applyAll_append_single, putPixel_length, ih]

/-- The cumulative effect of a FIFO drain at one coordinate: the last
write targeting `(x, y)` wins, and a coordinate nobody wrote keeps its
seed value. -/
lemma applyAll_getPix (c : Canvas) (ws : List Pixel)
    (hlen : c.data.length = c.width * c.height)
    (hws : ∀ p ∈ ws, p.x < c.width ∧ p.y < c.height)
    (x y : Nat) (hx : x < c.width) (_hy : y < c.height) :
    getPix (applyAll c ws) x y =
      (match lastWriteTo ws x y with
       | some p => ⟨p.r, p.g, p.b⟩
       | none => getPix c x y) := by
  induction ws using List.reverseRecOn with
  | nil => simp [applyAll, lastWriteTo]
  | append_singleton ws w ih =>
    have hwsw : ∀ p ∈ ws, p.x < c.width ∧ p.y < c.height := by
      intro p hp; exact hws p (by simp [hp])
    have hwb : w.x < c.width ∧ w.y < c.height := hws w (by simp)
    rw [applyAll_append_single]
    by_cases htgt : w.x = x ∧ w.y = y
    · have hlast : lastWriteTo (ws ++ [w]) x y = some w := by
        unfold lastWriteTo
        rw [List.filter_append]
        simp [htgt.1, htgt.2]
      rw [hlast]
      have := getPix_putPixel_same (applyAll c ws) w
        (by rw [applyAll_length, applyAll_width, applyAll_height]; exact hlen)
        (by rw [applyAll_width]; exact hwb.1)
        (by rw [applyAll_height]; exact hwb.2)
      rw [htgt.1, htgt.2] at this
      exact this
    · have hlast : lastWriteTo (ws ++ [w]) x y = lastWriteTo ws x y := by
        unfold lastWriteTo
        rw [List.filter_append]
        have : (([w] : List Pixel).filter fun p => p.x = x ∧ p.y = y) = [] := by
          simp only [List.filter, decide_eq_true_eq]
          split
          · rename_i hcond
            exact absurd (of_decide_eq_true (by simpa using hcond)) htgt
          · rfl
        rw [this, List.append_nil]
      rw [hlast]
      have hframe : getPix (putPixel (applyAll c ws) w) x y
          = getPix (applyAll c ws) x y := by
        refine getPix_putPixel_ne _ _ _ _ ?_ ?_ ?_
        · rw [applyAll_width]; exact hx
        · rw [applyAll_width]; exact hwb.1
        · intro hxy; exact htgt ⟨hxy.1.symm, hxy.2.symm⟩
      rw [hframe]
      exact ih hwsw

/-! ## Read path: `CanvasCache` and the `get_image` handler

The monotonic clock (`std::time::Instant`) is modelled as milliseconds
since process start (`Nat`); `elapsed()` at time `now` for a value stored
at `updatedAt` is `now - updatedAt` (truncated subtraction is harmless:
the clock is monotone, so `now ≥ updatedAt` at every use).  The PNG
encoder (`image` crate, external to this repository) is a parameter
`encode : Canvas → Option (List Nat)` (`none` = `Err` from `write_to`).
-/

/-- Models `CanvasCache<Vec<u8>>`: the encoded bytes plus the instant they
were stored (`CanvasCache::new` sets `updated_at: Instant::now()`). -/
structure CacheSlot where
  data : List Nat
  updatedAt : Nat
deriving DecidableEq

/-- Models `CanvasCache::get` (source lines 39–45): `None` when
`updated_at.elapsed() >= 100ms`, otherwise the stored bytes. -/
def CacheSlot.get (now : Nat) (c : CacheSlot) : Option (List Nat) :=
  if now - c.updatedAt ≥ 100 then none else some c.data

/-- The shared state touched by `get_image`: the canvas behind the
`RwLock` and the cache slot behind the `Mutex` (`Option` because the
cache starts empty, `Arc::default()`). -/
structure ReadState where
  canvas : Canvas
  cache : Option CacheSlot
deriving DecidableEq

/-- The parts of the HTTP response the handler itself determines: status,
body bytes, and the two headers it may set explicitly.  The cache-hit
path returns `Response::from(data)` and sets neither header; only the
fresh-encode path calls `.set_content_type("image/png")` and
`.with_header("Cache-Control", "no-store")`. -/
structure ImageResponse where
  status : Nat
  body : List Nat
  contentType : Option String
  cacheControl : Option String
deriving DecidableEq

/-- Models the `get_image` handler (source lines 59–87).  Returns the
handler outcome (`Except.error ()` = the `.unwrap()` panic on a failed
encode, which aborts the request before the cache assignment on line 81)
together with the resulting shared state. -/
def get_image (encode : Canvas → Option (List Nat)) (now : Nat)
    (s : ReadState) : Except Unit ImageResponse × ReadState :=
  match s.cache.bind fun slot => slot.get now with
  | some data =>
      (Except.ok { status := 200, body := data, contentType := none, cacheControl := none }, s)
  | none =>
      match encode s.canvas with
      | none => (Except.error (), s)
      | some data =>
          (Except.ok { status := 200, body := data,
                       contentType := some "image/png", cacheControl := some "no-store" },
           { canvas := s.canvas, cache := some { data := data, updatedAt := now } })

/-! ## Write path handler and the process-level transition system -/

/-- Models the `set_pixel` handler (source lines 91–101): the HTTP status
with its optional body, and the pixel handed to the queue (`none` = not
enqueued). -/
def set_pixel (w h : Nat) (p : Pixel) : (Nat × Option String) × Option Pixel :=
  if p.x ≥ w ∨ p.y ≥ h then ((400, some "pixel outside of drawing area"), none)
  else ((204, none), some p)

/-- Whole-process state for the write/shutdown interleaving model. -/
structure SysState where
  /-- `ServerState.canvas_size.0`, read once at startup. -/
  width : Nat
  /-- `ServerState.canvas_size.1`, read once at startup. -/
  height : Nat
  /-- Contents of the mpsc channel, FIFO (head = next to be received). -/
  queue : List Pixel
  /-- The pixel the applier thread currently holds (between a successful
  `recv`/`try_recv` and the corresponding `put_pixel`). -/
  cur : Option Pixel
  /-- Number of write-lock acquisitions by the applier so far; the id of
  the current batch while one is open. -/
  batchId : Nat
  /-- Whether the applier holds the canvas write lock. -/
  lockHeld : Bool
  /-- The shared raster. -/
  canvas : Canvas
  /-- Whether all `Sender`s have been dropped (channel closed). -/
  closed : Bool
  /-- The image persisted by `save_with_format`, once written. -/
  saved : Option Canvas
  /-- Ghost: every pixel accepted with 204, in acceptance order. -/
  accepted : List Pixel
  /-- Ghost: every applied pixel, tagged with the batch it ran in. -/
  appliedLog : List (Nat × Pixel)
  /-- Ghost: every enqueued pixel, with the batch counter and whether the
  applier was mid-batch (write lock held) at enqueue time. -/
  enqLog : List (Pixel × Nat × Bool)
deriving DecidableEq

/-- Startup state: seed canvas loaded, `canvas_size` snapshotted from its
dimensions, empty channel, idle applier. -/
def initState (c0 : Canvas) : SysState :=
  { width := c0.width, height := c0.height, queue := [], cur := none,
    batchId := 0, lockHeld := false, canvas := c0, closed := false,
    saved := none, accepted := [], appliedLog := [], enqLog := [] }

/-- Effect of one `set_pixel` request on the process state: an
out-of-bounds pixel changes nothing; a valid one is appended to the
channel (and to the ghost logs). -/
def requestStep (s : SysState) (p : Pixel) : SysState :=
  match (set_pixel s.width s.height p).2 with
  | none => s
  | some q =>
      { s with queue := s.queue ++ [q], accepted := s.accepted ++ [q],
               enqLog := s.enqLog ++ [(q, s.batchId, s.lockHeld)] }

/-- Applier batch start (source lines 121–122): `recv()` yields the head
of the queue, then the write lock is acquired. -/
def startBatchStep (s : SysState) (p : Pixel) (rest : List Pixel) : SysState :=
  { s with cur := some p, queue := rest, lockHeld := true, batchId := s.batchId + 1 }

/-- One iteration of the applier's inner loop (source lines 124–132):
`put_pixel` the held pixel, then `try_recv`; a newly available entry
continues the same batch, an empty poll breaks out and releases the
write lock. -/
def applyTryRecv (s : SysState) (p : Pixel) : SysState :=
  let c := putPixel s.canvas p
  let log := s.appliedLog ++ [(s.batchId, p)]
  match s.queue with
  | [] => { s with canvas := c, appliedLog := log, cur := none, lockHeld := false }
  | q :: rest => { s with canvas := c, appliedLog := log, cur := some q, queue := rest }

/-- Channel closure: the `Sender` is dropped when the server future
completes at shutdown. -/
def closeStep (s : SysState) : SysState :=
  { s with closed := true }

/-- `main`'s final `canvas.read().save_with_format(...)` (source lines
164–168): persist the raster as it is at that instant. -/
def saveStep (s : SysState) : SysState :=
  { s with saved := some s.canvas }

/-- Small-step transition relation of the process.  `request` may fire on
any worker thread while the server runs; `startBatch`/`applyPixel` are the
applier thread (the `recv` loop and the `try_recv` loop); `close` is the
server future completing; `save` is `main` after the server future — the
source never joins the applier thread, so `save` is enabled as soon as the
channel is closed and the write lock is free, whether or not the queue has
been drained. -/
inductive Step : SysState → SysState → Prop where
  | request (s : SysState) (p : Pixel) (h : s.closed = false) :
      Step s (requestStep s p)
  | startBatch (s : SysState) (p : Pixel) (rest : List Pixel)
      (hcur : s.cur = none) (hlock : s.lockHeld = false)
      (hq : s.queue = p :: rest) :
      Step s (startBatchStep s p rest)
  | applyPixel (s : SysState) (p : Pixel)
      (hcur : s.cur = some p) (hlock : s.lockHeld = true) :
      Step s (applyTryRecv s p)
  | close (s : SysState) (h : s.closed = false) :
      Step s (closeStep s)
  | save (s : SysState) (hclosed : s.closed = true)
      (hlock : s.lockHeld = false) (hsaved : s.saved = none) :
      Step s (saveStep s)

/-- States the process can reach from startup on seed canvas `c0`. -/
def Reachable (c0 : Canvas) (s : SysState) : Prop :=
  Relation.ReflTransGen Step (initState c0) s

/-- Invariant maintained by every reachable state: the size snapshot and
the canvas dimensions never change; the canvas is exactly the seed with
the applied prefix folded in; acceptance order decomposes as
applied ++ held ++ queued (FIFO); everything ever queued is in bounds;
batch tags are monotone; the applier holds a pixel only while it holds
the write lock. -/
structure Inv (c0 : Canvas) (s : SysState) : Prop where
  wEq : s.width = c0.width
  hEq : s.height = c0.height
  cw : s.canvas.width = c0.width
  ch : s.canvas.height = c0.height
  clen : s.canvas.data.length = c0.data.length
  fifo : s.accepted = s.appliedLog.map Prod.snd ++ s.cur.toList ++ s.queue
  canvasEq : s.canvas = applyAll c0 (s.appliedLog.map Prod.snd)
  accBound : ∀ p ∈ s.accepted, p.x < c0.width ∧ p.y < c0.height
  qBound : ∀ p ∈ s.queue, p.x < c0.width ∧ p.y < c0.height
  curBound : ∀ p, s.cur = some p → p.x < c0.width ∧ p.y < c0.height
  tagsLe : ∀ t ∈ s.appliedLog.map Prod.fst, t ≤ s.batchId
  tagsMono : List.Chain' (· ≤ ·) (s.appliedLog.map Prod.fst)
  lockCur : s.lockHeld = false → s.cur = none

lemma inv_init (c0 : Canvas) : Inv c0 (initState c0) := by
  refine ⟨rfl, rfl, rfl, rfl, rfl, rfl, rfl, ?_, ?_, ?_, ?_, ?_, fun _ => rfl⟩
  · intro p hp; simp [initState] at hp
  · intro p hp; simp [initState] at hp
  · intro p hp; simp [initState] at hp
  · intro t ht; simp [initState] at ht
  · simp [initState]

lemma requestStep_invalid (s : SysState) (p : Pixel)
    (hb : p.x ≥ s.width ∨ p.y ≥ s.height) : requestStep s p = s := by
  unfold requestStep set_pixel
  rw [if_pos hb]

lemma requestStep_valid (s : SysState) (p : Pixel)
    (hb : ¬(p.x ≥ s.width ∨ p.y ≥ s.height)) :
    requestStep s p =
      { s with queue := s.queue ++ [p], accepted := s.accepted ++ [p],
               enqLog := s.enqLog ++ [(p, s.batchId, s.lockHeld)] } := by
  unfold requestStep set_pixel
  rw [if_neg hb]

lemma inv_request (c0 : Canvas) (s : SysState) (p : Pixel) (ih : Inv c0 s) :
    Inv c0 (requestStep s p) := by
  by_cases hb : p.x ≥ s.width ∨ p.y ≥ s.height
  · rw [requestStep_invalid s p hb]; exact ih
  · rw [requestStep_valid s p hb]
    push_neg at hb
    have hbx : p.x < c0.width := by rw [← ih.wEq]; exact hb.1
    have hby : p.y < c0.height := by rw [← ih.hEq]; exact hb.2
    refine ⟨ih.wEq, ih.hEq, ih.cw, ih.ch, ih.clen, ?_, ih.canvasEq, ?_, ?_,
      ih.curBound, ih.tagsLe, ih.tagsMono, ih.lockCur⟩
    · show s.accepted ++ [p] = s.appliedLog.map Prod.snd ++ s.cur.toList ++ (s.queue ++ [p])
      rw [ih.fifo]
      simp [List.append_assoc]
    · intro q hq
      rcases List.mem_append.mp hq with hq | hq
      · exact ih.accBound q hq
      · rw [List.mem_singleton.mp hq]; exact ⟨hbx, hby⟩
    · intro q hq
      rcases List.mem_append.mp hq with hq | hq
      · exact ih.qBound q hq
      · rw [List.mem_singleton.mp hq]; exact ⟨hbx, hby⟩

lemma inv_startBatch (c0 : Canvas) (s : SysState) (p : Pixel) (rest : List Pixel)
    (hcur : s.cur = none) (hq : s.queue = p :: rest) (ih : Inv c0 s) :
    Inv c0 (startBatchStep s p rest) := by
  refine ⟨ih.wEq, ih.hEq, ih.cw, ih.ch, ih.clen, ?_, ih.canvasEq, ih.accBound, ?_, ?_,
    ?_, ih.tagsMono, ?_⟩
  · show s.accepted = s.appliedLog.map Prod.snd ++ (some p).toList ++ rest
    rw [ih.fifo, hq, hcur]
    simp
  · intro q hqm
    exact ih.qBound q (by rw [hq]; exact List.mem_cons_of_mem p hqm)
  · intro q hqe
    have hpq : p = q := by simpa [startBatchStep] using hqe
    rw [← hpq]
    exact ih.qBound p (by rw [hq]; exact List.mem_cons_self p rest)
  · intro t ht
    exact Nat.le_succ_of_le (ih.tagsLe t ht)
  · intro h
    exact absurd h (by simp [startBatchStep])

lemma chain_le_append_last {l : List Nat} {b : Nat}
    (hmono : List.Chain' (· ≤ ·) l) (hle : ∀ t ∈ l, t ≤ b) :
    List.Chain' (· ≤ ·) (l ++ [b]) := by
  refine List.Chain'.append hmono (List.chain'_singleton b) ?_
  intro x hx y hy
  have hxmem : x ∈ l := by
    rcases List.mem_getLast?_eq_getLast hx with ⟨hne, hx'⟩
    rw [hx']
    exact List.getLast_mem hne
  have hyb : b = y := by simpa using hy
  rw [← hyb]
  exact hle x hxmem

lemma inv_apply (c0 : Canvas) (s : SysState) (p : Pixel)
    (hcur : s.cur = some p) (hlock : s.lockHeld = true) (ih : Inv c0 s) :
    Inv c0 (applyTryRecv s p) := by
  have hpb : p.x < c0.width ∧ p.y < c0.height := ih.curBound p hcur
  have hnewCanvas : putPixel s.canvas p
      = applyAll c0 ((s.appliedLog ++ [(s.batchId, p)]).map Prod.snd) := by
    rw [List.map_append]
    show putPixel s.canvas p = applyAll c0 (s.appliedLog.map Prod.snd ++ [p])
    rw [applyAll_append_single, ← ih.canvasEq]
  have hmono : List.Chain' (· ≤ ·) ((s.appliedLog ++ [(s.batchId, p)]).map Prod.fst) := by
    rw [List.map_append]
    exact chain_le_append_last ih.tagsMono ih.tagsLe
  have htags : ∀ t ∈ (s.appliedLog ++ [(s.batchId, p)]).map Prod.fst, t ≤ s.batchId := by
    intro t ht
    rw [List.map_append, List.mem_append] at ht
    rcases ht with ht | ht
    · exact ih.tagsLe t ht
    · have : t = s.batchId := by simpa using ht
      rw [this]
  unfold applyTryRecv
  cases hq : s.queue with
  | nil =>
    refine ⟨ih.wEq, ih.hEq, ?_, ?_, ?_, ?_, ?_, ih.accBound, ?_, ?_, htags, hmono, ?_⟩
    · show (putPixel s.canvas p).width = c0.width
      rw [putPixel_width]; exact ih.cw
    · show (putPixel s.canvas p).height = c0.height
      rw [putPixel_height]; exact ih.ch
    · show (putPixel s.canvas p).data.length = c0.data.length
      rw [putPixel_length]; exact ih.clen
    · show s.accepted = (s.appliedLog ++ [(s.batchId, p)]).map Prod.snd ++ (none : Option Pixel).toList ++ []
      rw [ih.fifo, hcur, hq, List.map_append]
      simp
    · exact hnewCanvas
    · intro q hqm; simp at hqm
    · intro q hqe; simp at hqe
    · intro _; rfl
  | cons q rest =>
    refine ⟨ih.wEq, ih.hEq, ?_, ?_, ?_, ?_, ?_, ih.accBound, ?_, ?_, htags, hmono, ?_⟩
    · show (putPixel s.canvas p).width = c0.width
      rw [putPixel_width]; exact ih.cw
    · show (putPixel s.canvas p).height = c0.height
      rw [putPixel_height]; exact ih.ch
    · show (putPixel s.canvas p).data.length = c0.data.length
      rw [putPixel_length]; exact ih.clen
    · show s.accepted = (s.appliedLog ++ [(s.batchId, p)]).map Prod.snd ++ (some q).toList ++ rest
      rw [ih.fifo, hcur, hq, List.map_append]
      simp
    · exact hnewCanvas
    · intro q' hqm
      exact ih.qBound q' (by rw [hq]; exact List.mem_cons_of_mem q hqm)
    · intro q' hqe
      have : q = q' := by simpa using hqe
      rw [← this]
      exact ih.qBound q (by rw [hq]; exact List.mem_cons_self q rest)
    · intro hfalse
      rw [hlock] at hfalse
      exact absurd hfalse (by simp)

lemma inv_close (c0 : Canvas) (s : SysState) (ih : Inv c0 s) :
    Inv c0 (closeStep s) :=
  ⟨ih.wEq, ih.hEq, ih.cw, ih.ch, ih.clen, ih.fifo, ih.canvasEq, ih.accBound,
   ih.qBound, ih.curBound, ih.tagsLe, ih.tagsMono, ih.lockCur⟩

lemma inv_save (c0 : Canvas) (s : SysState) (ih : Inv c0 s) :
    Inv c0 (saveStep s) :=
  ⟨ih.wEq, ih.hEq, ih.cw, ih.ch, ih.clen, ih.fifo, ih.canvasEq, ih.accBound,
   ih.qBound, ih.curBound, ih.tagsLe, ih.tagsMono, ih.lockCur⟩

/-- Every reachable state satisfies the invariant. -/
lemma reachable_inv {c0 : Canvas} {s : SysState} (h : Reachable c0 s) : Inv c0 s := by
  induction h with
  | refl => exact inv_init c0
  | tail _ hstep ih =>
    cases hstep with
    | request p _ => exact inv_request c0 _ p ih
    | startBatch p rest hcur hlock hq => exact inv_startBatch c0 _ p rest hcur hq ih
    | applyPixel p hcur hlock => exact inv_apply c0 _ p hcur hlock ih
    | close _ => exact inv_close c0 _ ih
    | save _ _ _ => exact inv_save c0 _ ih

/-! ## Claim theorems -/

/-- C1: `set_pixel` answers 400 with body "pixel outside of drawing area",
enqueues nothing and leaves the whole state (canvas included) unchanged
exactly when `x ≥ W` or `y ≥ H`; it answers 204 and appends the pixel to
the write queue exactly when `x < W` and `y < H`. -/
theorem c1_submit_pixel_boundary (s : SysState) (p : Pixel) :
    ((set_pixel s.width s.height p).1 = (400, some "pixel outside of drawing area") ∧
        (set_pixel s.width s.height p).2 = none ∧ requestStep s p = s
      ↔ p.x ≥ s.width ∨ p.y ≥ s.height) ∧
    ((set_pixel s.width s.height p).1 = (204, none) ∧
        (set_pixel s.width s.height p).2 = some p ∧
        (requestStep s p).queue = s.queue ++ [p] ∧
        (requestStep s p).canvas = s.canvas
      ↔ p.x < s.width ∧ p.y < s.height) := by
  by_cases hb : p.x ≥ s.width ∨ p.y ≥ s.height
  · have hsp : set_pixel s.width s.height p
        = ((400, some "pixel outside of drawing area"), none) := by
      unfold set_pixel; rw [if_pos hb]
    have hrs := requestStep_invalid s p hb
    constructor
    · exact ⟨fun _ => hb, fun _ => ⟨by rw [hsp], by rw [hsp], hrs⟩⟩
    · constructor
      · intro hcontr
        rw [hsp] at hcontr
        exact absurd hcontr.1 (by simp)
      · intro hlt
        rcases hb with hge | hge
        · exact absurd hlt.1 (by omega)
        · exact absurd hlt.2 (by omega)
  · have hb' := hb
    push_neg at hb'
    have hsp : set_pixel s.width s.height p = ((204, none), some p) := by
      unfold set_pixel; rw [if_neg hb]
    have hrs := requestStep_valid s p hb
    constructor
    · constructor
      · intro hcontr
        rw [hsp] at hcontr
        exact absurd hcontr.1 (by simp)
      · intro hge
        exact absurd hge hb
    · exact ⟨fun _ => hb', fun _ => ⟨by rw [hsp], by rw [hsp], by rw [hrs], by rw [hrs]⟩⟩

/-- C9: one queued write mutates only its own coordinate: any other
in-range coordinate reads back unchanged, and the canvas dimensions and
buffer size fixed at startup persist. -/
theorem c9_single_write_frame (c : Canvas) (p : Pixel) (x y : Nat)
    (hx : x < c.width) (hpx : p.x < c.width) (hne : ¬(x = p.x ∧ y = p.y)) :
    getPix (putPixel c p) x y = getPix c x y ∧
    (putPixel c p).width = c.width ∧
    (putPixel c p).height = c.height ∧
    (putPixel c p).data.length = c.data.length :=
  ⟨getPix_putPixel_ne c p x y hx hpx hne, rfl, rfl, putPixel_length c p⟩

/-- Witness for C9 on a concrete 2×2 black canvas: writing red at (0,0)
leaves (1,1) black and the dimensions intact. -/
theorem c9_single_write_frame_witness :
    getPix (putPixel ⟨2, 2, [⟨0,0,0⟩, ⟨0,0,0⟩, ⟨0,0,0⟩, ⟨0,0,0⟩]⟩ ⟨0, 0, 255, 0, 0⟩) 1 1
        = getPix ⟨2, 2, [⟨0,0,0⟩, ⟨0,0,0⟩, ⟨0,0,0⟩, ⟨0,0,0⟩]⟩ 1 1 ∧
    (putPixel ⟨2, 2, [⟨0,0,0⟩, ⟨0,0,0⟩, ⟨0,0,0⟩, ⟨0,0,0⟩]⟩ ⟨0, 0, 255, 0, 0⟩).width = 2 ∧
    (putPixel ⟨2, 2, [⟨0,0,0⟩, ⟨0,0,0⟩, ⟨0,0,0⟩, ⟨0,0,0⟩]⟩ ⟨0, 0, 255, 0, 0⟩).height = 2 ∧
    (putPixel ⟨2, 2, [⟨0,0,0⟩, ⟨0,0,0⟩, ⟨0,0,0⟩, ⟨0,0,0⟩]⟩ ⟨0, 0, 255, 0, 0⟩).data.length = 4 :=
  c9_single_write_frame ⟨2, 2, [⟨0,0,0⟩, ⟨0,0,0⟩, ⟨0,0,0⟩, ⟨0,0,0⟩]⟩ ⟨0, 0, 255, 0, 0⟩ 1 1
    (by decide) (by decide) (by decide)

/-- C8: in every reachable state, everything sitting in the write queue
and anything the applier currently holds is strictly inside the canvas,
so the applier's `put_pixel` always takes its in-bounds branch (the
panicking out-of-bounds branch of `image::RgbImage::put_pixel` is
unreachable). -/
theorem c8_queued_writes_inbounds (c0 : Canvas) (s : SysState) (h : Reachable c0 s) :
    (∀ p ∈ s.queue, p.x < s.canvas.width ∧ p.y < s.canvas.height) ∧
    (∀ p, s.cur = some p → p.x < s.canvas.width ∧ p.y < s.canvas.height ∧
      putPixelBranch s.canvas p = some (putPixel s.canvas p)) := by
  have inv := reachable_inv h
  constructor
  · intro p hp
    have hb := inv.qBound p hp
    exact ⟨by rw [inv.cw]; exact hb.1, by rw [inv.ch]; exact hb.2⟩
  · intro p hp
    have hb := inv.curBound p hp
    have hx : p.x < s.canvas.width := by rw [inv.cw]; exact hb.1
    have hy : p.y < s.canvas.height := by rw [inv.ch]; exact hb.2
    exact ⟨hx, hy, by unfold putPixelBranch; rw [if_pos ⟨hx, hy⟩]⟩

/-- Witness for C8: two accepted writes on a 1×1 canvas, the applier
holding the first with the second still queued; the held write is
in-bounds and `put_pixel` takes its non-panicking branch. -/
theorem c8_queued_writes_inbounds_witness :
    putPixelBranch
        (startBatchStep
          (requestStep (requestStep (initState ⟨1, 1, [⟨0, 0, 0⟩]⟩) ⟨0, 0, 1, 2, 3⟩)
            ⟨0, 0, 4, 5, 6⟩)
          ⟨0, 0, 1, 2, 3⟩ [⟨0, 0, 4, 5, 6⟩]).canvas ⟨0, 0, 1, 2, 3⟩
      = some (putPixel
          (startBatchStep
            (requestStep (requestStep (initState ⟨1, 1, [⟨0, 0, 0⟩]⟩) ⟨0, 0, 1, 2, 3⟩)
              ⟨0, 0, 4, 5, 6⟩)
            ⟨0, 0, 1, 2, 3⟩ [⟨0, 0, 4, 5, 6⟩]).canvas ⟨0, 0, 1, 2, 3⟩) := by
  have t1 : Step (initState ⟨1, 1, [⟨0, 0, 0⟩]⟩)
      (requestStep (initState ⟨1, 1, [⟨0, 0, 0⟩]⟩) ⟨0, 0, 1, 2, 3⟩) :=
    Step.request _ _ (by decide)
  have t2 : Step (requestStep (initState ⟨1, 1, [⟨0, 0, 0⟩]⟩) ⟨0, 0, 1, 2, 3⟩)
      (requestStep (requestStep (initState ⟨1, 1, [⟨0, 0, 0⟩]⟩) ⟨0, 0, 1, 2, 3⟩)
        ⟨0, 0, 4, 5, 6⟩) :=
    Step.request _ _ (by decide)
  have t3 : Step (requestStep (requestStep (initState ⟨1, 1, [⟨0, 0, 0⟩]⟩) ⟨0, 0, 1, 2, 3⟩)
        ⟨0, 0, 4, 5, 6⟩)
      (startBatchStep
        (requestStep (requestStep (initState ⟨1, 1, [⟨0, 0, 0⟩]⟩) ⟨0, 0, 1, 2, 3⟩)
          ⟨0, 0, 4, 5, 6⟩)
        ⟨0, 0, 1, 2, 3⟩ [⟨0, 0, 4, 5, 6⟩]) :=
    Step.startBatch _ _ _ (by decide) (by decide) (by decide)
  have hreach : Reachable ⟨1, 1, [⟨0, 0, 0⟩]⟩
      (startBatchStep
        (requestStep (requestStep (initState ⟨1, 1, [⟨0, 0, 0⟩]⟩) ⟨0, 0, 1, 2, 3⟩)
          ⟨0, 0, 4, 5, 6⟩)
        ⟨0, 0, 1, 2, 3⟩ [⟨0, 0, 4, 5, 6⟩]) :=
    Relation.ReflTransGen.tail
      (Relation.ReflTransGen.tail (Relation.ReflTransGen.tail Relation.ReflTransGen.refl t1) t2)
      t3
  exact ((c8_queued_writes_inbounds _ _ hreach).2 ⟨0, 0, 1, 2, 3⟩ (by decide)).2.2

/-- C2: once the applier has drained the queue (nothing queued, nothing
held), the canvas is exactly the seed with every accepted write folded in
acceptance (FIFO) order; pointwise, each in-range coordinate holds the
color of the last accepted write targeting it — so distinct coordinates
each hold their own submitted color, same-coordinate writes resolve to
the later submission, and untouched coordinates keep the seed color. -/
theorem c2_drain_fifo_last_write_wins (c0 : Canvas) (s : SysState)
    (h : Reachable c0 s)
    (hlen : c0.data.length = c0.width * c0.height)
    (hq : s.queue = []) (hcur : s.cur = none)
    (x y : Nat) (hx : x < c0.width) (hy : y < c0.height) :
    s.canvas = applyAll c0 s.accepted ∧
    getPix s.canvas x y =
      (match lastWriteTo s.accepted x y with
       | some p => ⟨p.r, p.g, p.b⟩
       | none => getPix c0 x y) := by
  have inv := reachable_inv h
  have hacc : s.accepted = s.appliedLog.map Prod.snd := by
    rw [inv.fifo, hcur, hq]
    simp
  have hc : s.canvas = applyAll c0 s.accepted := by
    rw [hacc]; exact inv.canvasEq
  refine ⟨hc, ?_⟩
  rw [hc]
  exact applyAll_getPix c0 s.accepted hlen inv.accBound x y hx hy

/-- Witness for C2: on a 1×1 black canvas, accept two writes to (0,0)
(first color 9, then color 7), drain both in one batch; the canvas shows
the later color 7 (last write wins) and equals the seed plus the folded
accepted list. -/
theorem c2_drain_fifo_last_write_wins_witness :
    (applyTryRecv
        (applyTryRecv
          (startBatchStep
            (requestStep (requestStep (initState ⟨1, 1, [⟨0, 0, 0⟩]⟩) ⟨0, 0, 9, 9, 9⟩)
              ⟨0, 0, 7, 7, 7⟩)
            ⟨0, 0, 9, 9, 9⟩ [⟨0, 0, 7, 7, 7⟩])
          ⟨0, 0, 9, 9, 9⟩)
        ⟨0, 0, 7, 7, 7⟩).canvas
      = applyAll ⟨1, 1, [⟨0, 0, 0⟩]⟩
          (applyTryRecv
            (applyTryRecv
              (startBatchStep
                (requestStep (requestStep (initState ⟨1, 1, [⟨0, 0, 0⟩]⟩) ⟨0, 0, 9, 9, 9⟩)
                  ⟨0, 0, 7, 7, 7⟩)
                ⟨0, 0, 9, 9, 9⟩ [⟨0, 0, 7, 7, 7⟩])
              ⟨0, 0, 9, 9, 9⟩)
            ⟨0, 0, 7, 7, 7⟩).accepted ∧
    getPix
        (applyTryRecv
          (applyTryRecv
            (startBatchStep
              (requestStep (requestStep (initState ⟨1, 1, [⟨0, 0, 0⟩]⟩) ⟨0, 0, 9, 9, 9⟩)
                ⟨0, 0, 7, 7, 7⟩)
              ⟨0, 0, 9, 9, 9⟩ [⟨0, 0, 7, 7, 7⟩])
            ⟨0, 0, 9, 9, 9⟩)
          ⟨0, 0, 7, 7, 7⟩).canvas 0 0
      = (match lastWriteTo
            (applyTryRecv
              (applyTryRecv
                (startBatchStep
                  (requestStep (requestStep (initState ⟨1, 1, [⟨0, 0, 0⟩]⟩) ⟨0, 0, 9, 9, 9⟩)
                    ⟨0, 0, 7, 7, 7⟩)
                  ⟨0, 0, 9, 9, 9⟩ [⟨0, 0, 7, 7, 7⟩])
                ⟨0, 0, 9, 9, 9⟩)
              ⟨0, 0, 7, 7, 7⟩).accepted 0 0 with
         | some p => (⟨p.r, p.g, p.b⟩ : Rgb)
         | none => getPix ⟨1, 1, [⟨0, 0, 0⟩]⟩ 0 0) := by
  have t1 : Step (initState ⟨1, 1, [⟨0, 0, 0⟩]⟩)
      (requestStep (initState ⟨1, 1, [⟨0, 0, 0⟩]⟩) ⟨0, 0, 9, 9, 9⟩) :=
    Step.request _ _ (by decide)
  have t2 : Step (requestStep (initState ⟨1, 1, [⟨0, 0, 0⟩]⟩) ⟨0, 0, 9, 9, 9⟩)
      (requestStep (requestStep (initState ⟨1, 1, [⟨0, 0, 0⟩]⟩) ⟨0, 0, 9, 9, 9⟩)
        ⟨0, 0, 7, 7, 7⟩) :=
    Step.request _ _ (by decide)
  have t3 : Step
      (requestStep (requestStep (initState ⟨1, 1, [⟨0, 0, 0⟩]⟩) ⟨0, 0, 9, 9, 9⟩)
        ⟨0, 0, 7, 7, 7⟩)
      (startBatchStep
        (requestStep (requestStep (initState ⟨1, 1, [⟨0, 0, 0⟩]⟩) ⟨0, 0, 9, 9, 9⟩)
          ⟨0, 0, 7, 7, 7⟩)
        ⟨0, 0, 9, 9, 9⟩ [⟨0, 0, 7, 7, 7⟩]) :=
    Step.startBatch _ _ _ (by decide) (by decide) (by decide)
  have t4 : Step
      (startBatchStep
        (requestStep (requestStep (initState ⟨1, 1, [⟨0, 0, 0⟩]⟩) ⟨0, 0, 9, 9, 9⟩)
          ⟨0, 0, 7, 7, 7⟩)
        ⟨0, 0, 9, 9, 9⟩ [⟨0, 0, 7, 7, 7⟩])
      (applyTryRecv
        (startBatchStep
          (requestStep (requestStep (initState ⟨1, 1, [⟨0, 0, 0⟩]⟩) ⟨0, 0, 9, 9, 9⟩)
            ⟨0, 0, 7, 7, 7⟩)
          ⟨0, 0, 9, 9, 9⟩ [⟨0, 0, 7, 7, 7⟩])
        ⟨0, 0, 9, 9, 9⟩) :=
    Step.applyPixel _ _ (by decide) (by decide)
  have t5 : Step
      (applyTryRecv
        (startBatchStep
          (requestStep (requestStep (initState ⟨1, 1, [⟨0, 0, 0⟩]⟩) ⟨0, 0, 9, 9, 9⟩)
            ⟨0, 0, 7, 7, 7⟩)
          ⟨0, 0, 9, 9, 9⟩ [⟨0, 0, 7, 7, 7⟩])
        ⟨0, 0, 9, 9, 9⟩)
      (applyTryRecv
        (applyTryRecv
          (startBatchStep
            (requestStep (requestStep (initState ⟨1, 1, [⟨0, 0, 0⟩]⟩) ⟨0, 0, 9, 9, 9⟩)
              ⟨0, 0, 7, 7, 7⟩)
            ⟨0, 0, 9, 9, 9⟩ [⟨0, 0, 7, 7, 7⟩])
          ⟨0, 0, 9, 9, 9⟩)
        ⟨0, 0, 7, 7, 7⟩) :=
    Step.applyPixel _ _ (by decide) (by decide)
  have hreach := Relation.ReflTransGen.tail (Relation.ReflTransGen.tail
    (Relation.ReflTransGen.tail
      (Relation.ReflTransGen.tail (Relation.ReflTransGen.tail Relation.ReflTransGen.refl t1) t2)
      t3) t4) t5
  exact c2_drain_fifo_last_write_wins ⟨1, 1, [⟨0, 0, 0⟩]⟩ _ hreach (by decide)
    (by decide) (by decide) 0 0 (by decide) (by decide)

/-- C5 counterexample: the claim's deferral clause is false.  On a 1×1
canvas, the first write is accepted, batch 1 starts (write lock taken),
then a second write arrives mid-batch (its enqueue-log entry is tagged
batch 1, lock held); the applier's `try_recv` picks it up and applies it
inside batch 1 — not deferred to batch 2. -/
theorem c5_deferral_counterexample :
    Reachable ⟨1, 1, [⟨0, 0, 0⟩]⟩
      (applyTryRecv
        (applyTryRecv
          (requestStep
            (startBatchStep (requestStep (initState ⟨1, 1, [⟨0, 0, 0⟩]⟩) ⟨0, 0, 1, 1, 1⟩)
              ⟨0, 0, 1, 1, 1⟩ [])
            ⟨0, 0, 2, 2, 2⟩)
          ⟨0, 0, 1, 1, 1⟩)
        ⟨0, 0, 2, 2, 2⟩) ∧
    (applyTryRecv
        (applyTryRecv
          (requestStep
            (startBatchStep (requestStep (initState ⟨1, 1, [⟨0, 0, 0⟩]⟩) ⟨0, 0, 1, 1, 1⟩)
              ⟨0, 0, 1, 1, 1⟩ [])
            ⟨0, 0, 2, 2, 2⟩)
          ⟨0, 0, 1, 1, 1⟩)
        ⟨0, 0, 2, 2, 2⟩).enqLog
      = [(⟨0, 0, 1, 1, 1⟩, 0, false), (⟨0, 0, 2, 2, 2⟩, 1, true)] ∧
    (applyTryRecv
        (applyTryRecv
          (requestStep
            (startBatchStep (requestStep (initState ⟨1, 1, [⟨0, 0, 0⟩]⟩) ⟨0, 0, 1, 1, 1⟩)
              ⟨0, 0, 1, 1, 1⟩ [])
            ⟨0, 0, 2, 2, 2⟩)
          ⟨0, 0, 1, 1, 1⟩)
        ⟨0, 0, 2, 2, 2⟩).appliedLog
      = [(1, ⟨0, 0, 1, 1, 1⟩), (1, ⟨0, 0, 2, 2, 2⟩)] := by
  have t1 : Step (initState ⟨1, 1, [⟨0, 0, 0⟩]⟩)
      (requestStep (initState ⟨1, 1, [⟨0, 0, 0⟩]⟩) ⟨0, 0, 1, 1, 1⟩) :=
    Step.request _ _ (by decide)
  have t2 : Step (requestStep (initState ⟨1, 1, [⟨0, 0, 0⟩]⟩) ⟨0, 0, 1, 1, 1⟩)
      (startBatchStep (requestStep (initState ⟨1, 1, [⟨0, 0, 0⟩]⟩) ⟨0, 0, 1, 1, 1⟩)
        ⟨0, 0, 1, 1, 1⟩ []) :=
    Step.startBatch _ _ _ (by decide) (by decide) (by decide)
  have t3 : Step
      (startBatchStep (requestStep (initState ⟨1, 1, [⟨0, 0, 0⟩]⟩) ⟨0, 0, 1, 1, 1⟩)
        ⟨0, 0, 1, 1, 1⟩ [])
      (requestStep
        (startBatchStep (requestStep (initState ⟨1, 1, [⟨0, 0, 0⟩]⟩) ⟨0, 0, 1, 1, 1⟩)
          ⟨0, 0, 1, 1, 1⟩ [])
        ⟨0, 0, 2, 2, 2⟩) :=
    Step.request _ _ (by decide)
  have t4 : Step
      (requestStep
        (startBatchStep (requestStep (initState ⟨1, 1, [⟨0, 0, 0⟩]⟩) ⟨0, 0, 1, 1, 1⟩)
          ⟨0, 0, 1, 1, 1⟩ [])
        ⟨0, 0, 2, 2, 2⟩)
      (applyTryRecv
        (requestStep
          (startBatchStep (requestStep (initState ⟨1, 1, [⟨0, 0, 0⟩]⟩) ⟨0, 0, 1, 1, 1⟩)
            ⟨0, 0, 1, 1, 1⟩ [])
          ⟨0, 0, 2, 2, 2⟩)
        ⟨0, 0, 1, 1, 1⟩) :=
    Step.applyPixel _ _ (by decide) (by decide)
  have t5 : Step
      (applyTryRecv
        (requestStep
          (startBatchStep (requestStep (initState ⟨1, 1, [⟨0, 0, 0⟩]⟩) ⟨0, 0, 1, 1, 1⟩)
            ⟨0, 0, 1, 1, 1⟩ [])
          ⟨0, 0, 2, 2, 2⟩)
        ⟨0, 0, 1, 1, 1⟩)
      (applyTryRecv
        (applyTryRecv
          (requestStep
            (startBatchStep (requestStep (initState ⟨1, 1, [⟨0, 0, 0⟩]⟩) ⟨0, 0, 1, 1, 1⟩)
              ⟨0, 0, 1, 1, 1⟩ [])
            ⟨0, 0, 2, 2, 2⟩)
          ⟨0, 0, 1, 1, 1⟩)
        ⟨0, 0, 2, 2, 2⟩) :=
    Step.applyPixel _ _ (by decide) (by decide)
  refine ⟨?_, by decide, by decide⟩
  exact Relation.ReflTransGen.tail (Relation.ReflTransGen.tail
    (Relation.ReflTransGen.tail
      (Relation.ReflTransGen.tail (Relation.ReflTransGen.tail Relation.ReflTransGen.refl t1) t2)
      t3) t4) t5

/-- C5 (amended): the applier applies entries in strict FIFO acceptance
order, batch tags are monotone, and each `put_pixel` + `try_recv`
iteration stays in the same batch — the same write-lock acquisition —
whenever the queue is non-empty at poll time, regardless of when that
entry arrived; the batch ends (lock released) only when the poll finds
the queue empty. -/
theorem c5_fifo_batch_splice (c0 : Canvas) (s : SysState) (h : Reachable c0 s)
    (t : SysState) (p : Pixel) :
    s.accepted = s.appliedLog.map Prod.snd ++ s.cur.toList ++ s.queue ∧
    List.Chain' (· ≤ ·) (s.appliedLog.map Prod.fst) ∧
    (applyTryRecv t p).batchId = t.batchId ∧
    (applyTryRecv t p).appliedLog = t.appliedLog ++ [(t.batchId, p)] ∧
    (applyTryRecv t p).cur = t.queue.head? ∧
    (applyTryRecv t p).lockHeld
      = (match t.queue with | [] => false | _ :: _ => t.lockHeld) := by
  have inv := reachable_inv h
  refine ⟨inv.fifo, inv.tagsMono, ?_, ?_, ?_, ?_⟩ <;>
    · cases hq : t.queue with
      | nil => simp [applyTryRecv, hq]
      | cons a l => simp [applyTryRecv, hq]

/-- Witness for C5 (amended), instantiated at the startup state and a
concrete mid-batch poll with a non-empty queue: the next entry joins
batch 5 without a new lock acquisition. -/
theorem c5_fifo_batch_splice_witness :
    (initState ⟨1, 1, [⟨0, 0, 0⟩]⟩).accepted
      = (initState ⟨1, 1, [⟨0, 0, 0⟩]⟩).appliedLog.map Prod.snd
        ++ (initState ⟨1, 1, [⟨0, 0, 0⟩]⟩).cur.toList
        ++ (initState ⟨1, 1, [⟨0, 0, 0⟩]⟩).queue ∧
    List.Chain' (· ≤ ·) ((initState ⟨1, 1, [⟨0, 0, 0⟩]⟩).appliedLog.map Prod.fst) ∧
    (applyTryRecv
        { width := 1, height := 1, queue := [⟨0, 0, 4, 4, 4⟩], cur := some ⟨0, 0, 3, 3, 3⟩,
          batchId := 5, lockHeld := true, canvas := ⟨1, 1, [⟨0, 0, 0⟩]⟩, closed := false,
          saved := none, accepted := [], appliedLog := [], enqLog := [] }
        ⟨0, 0, 3, 3, 3⟩).batchId = 5 ∧
    (applyTryRecv
        { width := 1, height := 1, queue := [⟨0, 0, 4, 4, 4⟩], cur := some ⟨0, 0, 3, 3, 3⟩,
          batchId := 5, lockHeld := true, canvas := ⟨1, 1, [⟨0, 0, 0⟩]⟩, closed := false,
          saved := none, accepted := [], appliedLog := [], enqLog := [] }
        ⟨0, 0, 3, 3, 3⟩).appliedLog = [] ++ [(5, ⟨0, 0, 3, 3, 3⟩)] ∧
    (applyTryRecv
        { width := 1, height := 1, queue := [⟨0, 0, 4, 4, 4⟩], cur := some ⟨0, 0, 3, 3, 3⟩,
          batchId := 5, lockHeld := true, canvas := ⟨1, 1, [⟨0, 0, 0⟩]⟩, closed := false,
          saved := none, accepted := [], appliedLog := [], enqLog := [] }
        ⟨0, 0, 3, 3, 3⟩).cur = ([⟨0, 0, 4, 4, 4⟩] : List Pixel).head? ∧
    (applyTryRecv
        { width := 1, height := 1, queue := [⟨0, 0, 4, 4, 4⟩], cur := some ⟨0, 0, 3, 3, 3⟩,
          batchId := 5, lockHeld := true, canvas := ⟨1, 1, [⟨0, 0, 0⟩]⟩, closed := false,
          saved := none, accepted := [], appliedLog := [], enqLog := [] }
        ⟨0, 0, 3, 3, 3⟩).lockHeld
      = (match ([⟨0, 0, 4, 4, 4⟩] : List Pixel) with | [] => false | _ :: _ => true) :=
  c5_fifo_batch_splice ⟨1, 1, [⟨0, 0, 0⟩]⟩ (initState ⟨1, 1, [⟨0, 0, 0⟩]⟩)
    Relation.ReflTransGen.refl
    { width := 1, height := 1, queue := [⟨0, 0, 4, 4, 4⟩], cur := some ⟨0, 0, 3, 3, 3⟩,
      batchId := 5, lockHeld := true, canvas := ⟨1, 1, [⟨0, 0, 0⟩]⟩, closed := false,
      saved := none, accepted := [], appliedLog := [], enqLog := [] }
    ⟨0, 0, 3, 3, 3⟩

/-- C4 is violated by the code: `main` saves the canvas without joining
the applier thread.  Concrete interleaving on a 1×1 black seed: a write
of color (255,0,0) to (0,0) is accepted (204 returned, pixel queued);
the shutdown signal arrives, the server future completes and drops the
channel `Sender`; `main` immediately takes the read lock (the applier is
idle, not mid-batch) and persists the canvas — still all black.  The
accepted write is not reflected in the persisted image. -/
theorem c4_save_before_drain_counterexample :
    Reachable ⟨1, 1, [⟨0, 0, 0⟩]⟩
      (saveStep (closeStep (requestStep (initState ⟨1, 1, [⟨0, 0, 0⟩]⟩) ⟨0, 0, 255, 0, 0⟩))) ∧
    (saveStep (closeStep (requestStep (initState ⟨1, 1, [⟨0, 0, 0⟩]⟩)
        ⟨0, 0, 255, 0, 0⟩))).accepted = [⟨0, 0, 255, 0, 0⟩] ∧
    (saveStep (closeStep (requestStep (initState ⟨1, 1, [⟨0, 0, 0⟩]⟩)
        ⟨0, 0, 255, 0, 0⟩))).saved = some ⟨1, 1, [⟨0, 0, 0⟩]⟩ ∧
    getPix ⟨1, 1, [⟨0, 0, 0⟩]⟩ 0 0 ≠ (⟨255, 0, 0⟩ : Rgb) := by
  have t1 : Step (initState ⟨1, 1, [⟨0, 0, 0⟩]⟩)
      (requestStep (initState ⟨1, 1, [⟨0, 0, 0⟩]⟩) ⟨0, 0, 255, 0, 0⟩) :=
    Step.request _ _ (by decide)
  have t2 : Step (requestStep (initState ⟨1, 1, [⟨0, 0, 0⟩]⟩) ⟨0, 0, 255, 0, 0⟩)
      (closeStep (requestStep (initState ⟨1, 1, [⟨0, 0, 0⟩]⟩) ⟨0, 0, 255, 0, 0⟩)) :=
    Step.close _ (by decide)
  have t3 : Step
      (closeStep (requestStep (initState ⟨1, 1, [⟨0, 0, 0⟩]⟩) ⟨0, 0, 255, 0, 0⟩))
      (saveStep (closeStep (requestStep (initState ⟨1, 1, [⟨0, 0, 0⟩]⟩) ⟨0, 0, 255, 0, 0⟩))) :=
    Step.save _ (by decide) (by decide) (by decide)
  exact ⟨Relation.ReflTransGen.tail (Relation.ReflTransGen.tail
    (Relation.ReflTransGen.tail Relation.ReflTransGen.refl t1) t2) t3,
    by decide, by decide, by decide⟩

/-- C3: a cached encoding is fresh exactly when `now - updated_at < 100`
(ms); `get_image` with a fresh entry returns exactly the cached bytes,
leaves the whole state untouched, and never invokes the encoder (its
result is identical for any two encoders); with no fresh entry it encodes
the current canvas, stores the bytes with timestamp `now`, and returns
exactly those bytes (surfacing the encoder's failure otherwise). -/
theorem c3_cache_ttl_read_path (e eAlt : Canvas → Option (List Nat)) (now : Nat)
    (s : ReadState) (slot : CacheSlot) :
    (CacheSlot.get now slot
      = if now - slot.updatedAt < 100 then some slot.data else none) ∧
    (get_image e now s =
      match s.cache with
      | some sl =>
          if now - sl.updatedAt < 100 then
            (Except.ok { status := 200, body := sl.data,
                         contentType := none, cacheControl := none }, s)
          else
            (match e s.canvas with
             | none => (Except.error (), s)
             | some d =>
                 (Except.ok { status := 200, body := d, contentType := some "image/png",
                              cacheControl := some "no-store" },
                  { canvas := s.canvas, cache := some { data := d, updatedAt := now } }))
      | none =>
          match e s.canvas with
          | none => (Except.error (), s)
          | some d =>
              (Except.ok { status := 200, body := d, contentType := some "image/png",
                           cacheControl := some "no-store" },
               { canvas := s.canvas, cache := some { data := d, updatedAt := now } })) ∧
    ((get_image e now s).2.canvas = s.canvas) ∧
    ((s.cache.bind fun sl => sl.get now).isSome = true →
      (get_image e now s).2 = s ∧ get_image e now s = get_image eAlt now s) := by
  have hslot : ∀ sl : CacheSlot,
      sl.get now = if now - sl.updatedAt < 100 then some sl.data else none := by
    intro sl
    unfold CacheSlot.get
    by_cases hfr : now - sl.updatedAt ≥ 100
    · rw [if_pos hfr, if_neg (by omega)]
    · rw [if_neg hfr, if_pos (by omega)]
  refine ⟨hslot slot, ?_, ?_, ?_⟩
  · cases hc : s.cache with
    | none =>
      unfold get_image
      rw [hc]
      cases e s.canvas <;> rfl
    | some sl =>
      unfold get_image
      rw [hc]
      by_cases hfr : now - sl.updatedAt < 100 <;>
        simp [Option.some_bind, hslot sl, hfr]
  · unfold get_image
    cases hv : s.cache.bind fun sl => sl.get now with
    | some d => rfl
    | none => cases e s.canvas <;> rfl
  · intro hsome
    obtain ⟨d, hd⟩ := Option.isSome_iff_exists.mp hsome
    constructor
    · unfold get_image
      rw [hd]
    · unfold get_image
      rw [hd]

/-- Witness for C3 at a fresh concrete cache entry (stored at t=0, read
at t=50, bytes `[1,2]`), with two different encoders: the hit leaves the
state alone and the encoders are never consulted. -/
theorem c3_cache_ttl_read_path_witness :
    (CacheSlot.get 50 ⟨[1, 2], 0⟩
        = if 50 - (0 : Nat) < 100 then some [1, 2] else none) ∧
    (get_image (fun _ => some [3]) 50 ⟨⟨1, 1, [⟨0, 0, 0⟩]⟩, some ⟨[1, 2], 0⟩⟩ =
      match (some (⟨[1, 2], 0⟩ : CacheSlot)) with
      | some sl =>
          if 50 - sl.updatedAt < 100 then
            (Except.ok { status := 200, body := sl.data,
                         contentType := none, cacheControl := none },
             (⟨⟨1, 1, [⟨0, 0, 0⟩]⟩, some ⟨[1, 2], 0⟩⟩ : ReadState))
          else
            (match (fun (_ : Canvas) => some [3]) (⟨1, 1, [⟨0, 0, 0⟩]⟩ : Canvas) with
             | none => (Except.error (), (⟨⟨1, 1, [⟨0, 0, 0⟩]⟩, some ⟨[1, 2], 0⟩⟩ : ReadState))
             | some d =>
                 (Except.ok { status := 200, body := d, contentType := some "image/png",
                              cacheControl := some "no-store" },
                  { canvas := ⟨1, 1, [⟨0, 0, 0⟩]⟩, cache := some { data := d, updatedAt := 50 } }))
      | none =>
          match (fun (_ : Canvas) => some [3]) (⟨1, 1, [⟨0, 0, 0⟩]⟩ : Canvas) with
          | none => (Except.error (), (⟨⟨1, 1, [⟨0, 0, 0⟩]⟩, some ⟨[1, 2], 0⟩⟩ : ReadState))
          | some d =>
              (Except.ok { status := 200, body := d, contentType := some "image/png",
                           cacheControl := some "no-store" },
               { canvas := ⟨1, 1, [⟨0, 0, 0⟩]⟩, cache := some { data := d, updatedAt := 50 } })) ∧
    ((get_image (fun _ => some [3]) 50 ⟨⟨1, 1, [⟨0, 0, 0⟩]⟩, some ⟨[1, 2], 0⟩⟩).2.canvas
      = (⟨1, 1, [⟨0, 0, 0⟩]⟩ : Canvas)) ∧
    (((some (⟨[1, 2], 0⟩ : CacheSlot)).bind fun sl => sl.get 50).isSome = true →
      (get_image (fun _ => some [3]) 50 ⟨⟨1, 1, [⟨0, 0, 0⟩]⟩, some ⟨[1, 2], 0⟩⟩).2
          = (⟨⟨1, 1, [⟨0, 0, 0⟩]⟩, some ⟨[1, 2], 0⟩⟩ : ReadState) ∧
        get_image (fun _ => some [3]) 50 ⟨⟨1, 1, [⟨0, 0, 0⟩]⟩, some ⟨[1, 2], 0⟩⟩
          = get_image (fun _ => none) 50 ⟨⟨1, 1, [⟨0, 0, 0⟩]⟩, some ⟨[1, 2], 0⟩⟩) :=
  c3_cache_ttl_read_path (fun _ => some [3]) (fun _ => none) 50
    ⟨⟨1, 1, [⟨0, 0, 0⟩]⟩, some ⟨[1, 2], 0⟩⟩ ⟨[1, 2], 0⟩

/-- C6 counterexample: a cache-hit response.  With a fresh cached entry
`[1,2,3]`, `get_image` returns status 200 with the cached bytes but sets
neither `Cache-Control: no-store` nor any content type — the hit path is
`Response::from(data)` with no headers (source line 68), so not every
response carries the no-store marker. -/
theorem c6_cache_hit_lacks_no_store :
    (get_image (fun _ => none) 0
        ⟨⟨1, 1, [⟨0, 0, 0⟩]⟩, some ⟨[1, 2, 3], 0⟩⟩).1.map (fun r => r.status)
      = Except.ok 200 ∧
    (get_image (fun _ => none) 0
        ⟨⟨1, 1, [⟨0, 0, 0⟩]⟩, some ⟨[1, 2, 3], 0⟩⟩).1.map (fun r => r.body)
      = Except.ok [1, 2, 3] ∧
    (get_image (fun _ => none) 0
        ⟨⟨1, 1, [⟨0, 0, 0⟩]⟩, some ⟨[1, 2, 3], 0⟩⟩).1.map (fun r => r.cacheControl)
      = Except.ok none ∧
    (get_image (fun _ => none) 0
        ⟨⟨1, 1, [⟨0, 0, 0⟩]⟩, some ⟨[1, 2, 3], 0⟩⟩).1.map (fun r => r.contentType)
      = Except.ok none ∧
    (none : Option String) ≠ some "no-store" := by
  refine ⟨rfl, rfl, rfl, rfl, by simp⟩

/-- C6 (amended): only responses produced by a fresh encode (cache miss)
carry `Content-Type: image/png` and `Cache-Control: no-store`; cache-hit
responses are returned with neither header set by the handler. -/
theorem c6_headers_only_on_fresh_encode (e : Canvas → Option (List Nat))
    (now : Nat) (s : ReadState) :
    (get_image e now s).1.map (fun r => (r.contentType, r.cacheControl)) =
      (match s.cache.bind fun sl => sl.get now with
       | some _ => Except.ok (none, none)
       | none =>
           match e s.canvas with
           | none => Except.error ()
           | some _ => Except.ok (some "image/png", some "no-store")) := by
  unfold get_image
  cases hv : s.cache.bind fun sl => sl.get now with
  | some d => rfl
  | none => cases e s.canvas <;> rfl

/-- C7: when no fresh cache entry exists and encoding fails, `get_image`
aborts with the `unwrap` panic — a server-side failure surfaced to that
request — before the cache assignment, so the state (previously cached
bytes included) is exactly what it was. -/
theorem c7_encode_failure_preserves_cache (e : Canvas → Option (List Nat))
    (now : Nat) (s : ReadState)
    (hmiss : (s.cache.bind fun sl => sl.get now) = none)
    (henc : e s.canvas = none) :
    get_image e now s = (Except.error (), s) := by
  unfold get_image
  rw [hmiss, henc]

/-- Witness for C7: a stale entry `[9]` stored at t=0 read at t=200 with
a failing encoder; the request errors and the stale bytes stay in the
cache slot untouched. -/
theorem c7_encode_failure_preserves_cache_witness :
    get_image (fun _ => none) 200 ⟨⟨1, 1, [⟨0, 0, 0⟩]⟩, some ⟨[9], 0⟩⟩
      = (Except.error (), ⟨⟨1, 1, [⟨0, 0, 0⟩]⟩, some ⟨[9], 0⟩⟩) :=
  c7_encode_failure_preserves_cache (fun _ => none) 200
    ⟨⟨1, 1, [⟨0, 0, 0⟩]⟩, some ⟨[9], 0⟩⟩ (by decide) rfl

/-- C10: a cache-hit read leaves the cache slot entirely unchanged — same
bytes, same `updated_at` — so the entry's freshness at any later time is
still measured from its original creation instant, however many reads it
served. -/
theorem c10_cache_hit_no_refresh (e : Canvas → Option (List Nat))
    (now later : Nat) (s : ReadState) (slot : CacheSlot)
    (hc : s.cache = some slot) (hfresh : now - slot.updatedAt < 100) :
    (get_image e now s).2 = s ∧
    (get_image e now s).2.cache = some slot ∧
    (CacheSlot.get later slot
      = if later - slot.updatedAt < 100 then some slot.data else none) := by
  have hget : slot.get now = some slot.data := by
    unfold CacheSlot.get
    rw [if_neg (by omega)]
  have h2 : (get_image e now s).2 = s := by
    unfold get_image
    rw [hc, Option.some_bind, hget]
  refine ⟨h2, by rw [h2, hc], ?_⟩
  unfold CacheSlot.get
  by_cases hfr : later - slot.updatedAt ≥ 100
  · rw [if_pos hfr, if_neg (by omega)]
  · rw [if_neg hfr, if_pos (by omega)]

/-- Witness for C10: entry `[7]` stored at t=0, hit at t=40, probed again
at t=150: the hit returns the state unchanged and the entry still expires
exactly 100 ms after creation (stale at 150). -/
theorem c10_cache_hit_no_refresh_witness :
    (get_image (fun _ => some [8]) 40 ⟨⟨1, 1, [⟨0, 0, 0⟩]⟩, some ⟨[7], 0⟩⟩).2
        = (⟨⟨1, 1, [⟨0, 0, 0⟩]⟩, some ⟨[7], 0⟩⟩ : ReadState) ∧
    (get_image (fun _ => some [8]) 40 ⟨⟨1, 1, [⟨0, 0, 0⟩]⟩, some ⟨[7], 0⟩⟩).2.cache
        = some ⟨[7], 0⟩ ∧
    (CacheSlot.get 150 ⟨[7], 0⟩
      = if 150 - (0 : Nat) < 100 then some [7] else none) :=
  c10_cache_hit_no_refresh (fun _ => some [8]) 40 150
    ⟨⟨1, 1, [⟨0, 0, 0⟩]⟩, some ⟨[7], 0⟩⟩ ⟨[7], 0⟩ rfl (by decide)

end PixelCanvas
